import Mathlib

/-!
Verification of the date-time range picker core (dateState.ts, timezone.ts,
presets.ts) against its specification.

Embedding conventions:
* An instant / JavaScript Date is an `Int`: milliseconds since the Unix epoch.
* Following the spec (civil fields are treated "as if they were already UTC"
  when rebuilt into a Date), the host environment runs with its local
  timezone equal to UTC, so ECMAScript LocalTime is the identity and every
  Date accessor reads the UTC frame.
* ECMAScript defines Day(t) = floor(t / 86400000) and msPerDay = 86400000;
  Lean's `/` on Int is Euclidean division, which agrees with floor division
  for positive divisors, so `t / 86400000` is exactly ECMAScript Day(t).
* The host civil-calendar capability (the year/month/day fields produced by
  Date accessors and Intl.DateTimeFormat) is modelled from the spec with the
  standard civil-from-days / days-from-civil algorithms used by real
  implementations.
-/

/-- A civil calendar date: the year/month/day fields a host formatter
produces.  `month` is 1-based (January = 1). -/
structure CivilDate where
  year : Int
  month : Int
  day : Int
deriving DecidableEq

/-- Year of era (0..399) from day of era (0..146096): the leap-corrected
division step of the civil-from-days algorithm. -/
def civilYoe (doe : Int) : Int :=
  (doe - doe / 1460 + doe / 36524 - doe / 146096) / 365

/-- Day of year (0-based, March-first year) from day of era. -/
def civilDoy (doe : Int) : Int :=
  doe - (365 * civilYoe doe + civilYoe doe / 4 - civilYoe doe / 100)

/-- Shifted month index (0 = March .. 11 = February) from day of era. -/
def civilMp (doe : Int) : Int := (5 * civilDoy doe + 2) / 153

/-- Calendar month (1..12) from day of era. -/
def civilM (doe : Int) : Int :=
  if civilMp doe < 10 then civilMp doe + 3 else civilMp doe - 9

/-- Day of month (1..31) from day of era. -/
def civilD (doe : Int) : Int :=
  civilDoy doe - (153 * civilMp doe + 2) / 5 + 1

/-- Modelled from the spec: the host capability that turns a day number
(days since 1970-01-01) into civil year/month/day fields, as performed by
ECMAScript Date accessors / Intl formatters (standard civil-from-days
algorithm, proleptic Gregorian calendar). -/
def civilFromDays (z0 : Int) : CivilDate :=
  let z := z0 + 719468
  let era := z / 146097
  let doe := z - era * 146097
  let y := civilYoe doe + era * 400
  ⟨if civilM doe ≤ 2 then y + 1 else y, civilM doe, civilD doe⟩

/-- Modelled from the spec: the host capability that turns civil
year/month/day fields back into a day number (ECMAScript MakeDay; standard
days-from-civil algorithm, proleptic Gregorian calendar). -/
def daysFromCivil (c : CivilDate) : Int :=
  let y := if c.month ≤ 2 then c.year - 1 else c.year
  let era := y / 400
  let yoe := y - era * 400
  let mp := if 2 < c.month then c.month - 3 else c.month + 9
  let doy := (153 * mp + 2) / 5 + c.day - 1
  let doe := yoe * 365 + yoe / 4 - yoe / 100 + doy
  era * 146097 + doe - 719468

/-- Modelled from the spec (host capability): ECMAScript MakeDay with month normalisation: `m` is the 0-based month
count, carried into the year when out of range. -/
def jsMakeDay (y m dt : Int) : Int :=
  daysFromCivil ⟨y + m / 12, m % 12 + 1, dt⟩

/-- Modelled from the spec (host capability): ECMAScript Date.prototype.setHours in a UTC host frame:
MakeDate(Day(t), MakeTime(h, mi, s, ms)). -/
def jsSetHours (t h mi s ms : Int) : Int :=
  t / 86400000 * 86400000 + ((h * 60 + mi) * 60 + s) * 1000 + ms

/-- Modelled from the spec (host capability): the civil fields of an instant in the UTC host frame. -/
def jsCivil (t : Int) : CivilDate := civilFromDays (t / 86400000)

/-- Modelled from the spec (host capability): ECMAScript Date.prototype.getDate (day of month, 1-based). -/
def jsGetDate (t : Int) : Int := (jsCivil t).day

/-- Modelled from the spec (host capability): ECMAScript Date.prototype.getMonth (0-based month). -/
def jsGetMonth (t : Int) : Int := (jsCivil t).month - 1

/-- Modelled from the spec (host capability): ECMAScript Date.prototype.setDate in a UTC host frame. -/
def jsSetDate (t n : Int) : Int :=
  jsMakeDay (jsCivil t).year (jsGetMonth t) n * 86400000 + t % 86400000

/-- Modelled from the spec (host capability): ECMAScript Date.prototype.setMonth in a UTC host frame (`m` 0-based). -/
def jsSetMonth (t m : Int) : Int :=
  jsMakeDay (jsCivil t).year m (jsGetDate t) * 86400000 + t % 86400000

/-- Modelled from the spec (host capability): ECMAScript WeekDay(t) = (Day(t) + 4) modulo 7 (0 = Sunday). -/
def jsGetDay (t : Int) : Int := (t / 86400000 + 4) % 7

/-- Modelled from the spec (host capability): ECMAScript HourFromTime(t): hour of day in the UTC frame. -/
def jsHours (t : Int) : Int := t % 86400000 / 3600000

/-- Modelled from the spec (host capability): ECMAScript MinFromTime(t): minute of hour. -/
def jsMinutes (t : Int) : Int := t % 3600000 / 60000

/-- Modelled from the spec (host capability): ECMAScript SecFromTime(t): second of minute. -/
def jsSeconds (t : Int) : Int := t % 60000 / 1000

/-! ## dateState.ts: state model and validators -/

/-- dateState.ts DateTimeValue: a Date-or-null plus an HH:MM-string-or-null. -/
structure DateTimeValue where
  date : Option Int
  time : Option String

/-- dateState.ts DateTimeRange.  The source field named after the Lean
keyword for the upper endpoint is called `endv` here. -/
structure DateTimeRange where
  start : DateTimeValue
  endv : DateTimeValue

/-- dateState.ts PickerConstraints; all fields optional as in the source. -/
structure PickerConstraints where
  minDate : Option Int
  maxDate : Option Int
  blackoutDates : Option (List Int)
  minDuration : Option Int
  maxDuration : Option Int
  disabledDays : Option (List Int)

/-- The constraint object with every field absent. -/
def noConstraints : PickerConstraints := ⟨none, none, none, none, none, none⟩

/-- Result shape of isDateValid. -/
structure SingleValidation where
  valid : Bool
  error : Option String
deriving DecidableEq

/-- Result shape of isRangeValid. -/
structure RangeValidation where
  valid : Bool
  errors : List String
deriving DecidableEq

/-- dateState.ts isSameDay: getFullYear/getMonth/getDate of both dates agree
(getMonth is 0-based in the source; equality of the 0-based months is
equality of the 1-based ones). -/
def isSameDay (d1 d2 : Int) : Bool :=
  decide ((jsCivil d1).year = (jsCivil d2).year)
    && decide ((jsCivil d1).month = (jsCivil d2).month)
    && decide ((jsCivil d1).day = (jsCivil d2).day)

/-- dateState.ts isDateValid: minDate, maxDate, blackout-day, disabled-weekday
checks in order, returning on the first failure.  A present minDate/maxDate
Date object is always truthy in the source, so presence alone enables the
check. -/
def isDateValid (date : Int) (constraints : PickerConstraints) : SingleValidation :=
  if constraints.minDate.any fun m => decide (date < m) then
    ⟨false, some "Date is before minimum allowed"⟩
  else if constraints.maxDate.any fun m => decide (m < date) then
    ⟨false, some "Date is after maximum allowed"⟩
  else if (constraints.blackoutDates.getD []).any fun bd => isSameDay bd date then
    ⟨false, some "This date is not available"⟩
  else if (constraints.disabledDays.getD []).contains (jsGetDay date) then
    ⟨false, some "This day is disabled"⟩
  else ⟨true, none⟩

/-- Split a character list at each colon, as String.split(":") does. -/
def splitColonAux : List Char → List Char → List (List Char)
  | [], acc => [acc.reverse]
  | c :: rest, acc =>
    if c = ':' then acc.reverse :: splitColonAux rest []
    else splitColonAux rest (c :: acc)

/-- JavaScript String.prototype.split(":") on the character level. -/
def splitColon (s : String) : List (List Char) := splitColonAux s.data []

/-- Decimal value of a digit run. -/
def digitsVal (cs : List Char) : Nat :=
  cs.foldl (fun acc c => acc * 10 + (c.toNat - 48)) 0

/-- JavaScript Number() applied to one field of a well-formed HH:MM string
(spec precondition, §6/§7: the core assumes canonical time strings; Number
of a non-numeric field would be NaN, modelled as 0). -/
def jsNumberField (cs : List Char) : Int :=
  if cs ≠ [] ∧ cs.all Char.isDigit then (digitsVal cs : Nat) else 0

/-- dateState.ts combineDateTime: split the HH:MM string, copy the date and
setHours(hours, minutes, 0, 0) on the copy. -/
def combineDateTime (date : Int) (time : String) : Int :=
  let parts := splitColon time
  let hours := jsNumberField (parts.getD 0 [])
  let minutes := jsNumberField (parts.getD 1 [])
  jsSetHours date hours minutes 0 0

/-- dateState.ts formatDuration: nested Math.floor conversions, then the
largest positive unit is rendered, pluralised when greater than 1. -/
def formatDuration (ms : Int) : String :=
  let seconds := ms / 1000
  let minutes := seconds / 60
  let hours := minutes / 60
  let days := hours / 24
  if 0 < days then toString days ++ " day" ++ (if 1 < days then "s" else "")
  else if 0 < hours then toString hours ++ " hour" ++ (if 1 < hours then "s" else "")
  else if 0 < minutes then toString minutes ++ " minute" ++ (if 1 < minutes then "s" else "")
  else toString seconds ++ " second" ++ (if 1 < seconds then "s" else "")

/-- The duration-formatting policy as the spec words it: the largest whole
unit among days, hours, minutes, seconds whose floored magnitude is
non-zero, pluralised exactly when that magnitude exceeds 1; none when no
unit is non-zero.  Stated from the spec's words for comparison with the
source's formatDuration. -/
def formatDurationPolicy (ms : Int) : Option String :=
  let days := ms / 86400000
  let hours := ms / 3600000
  let minutes := ms / 60000
  let seconds := ms / 1000
  if days ≠ 0 then some (toString days ++ " day" ++ (if 1 < days then "s" else ""))
  else if hours ≠ 0 then some (toString hours ++ " hour" ++ (if 1 < hours then "s" else ""))
  else if minutes ≠ 0 then
    some (toString minutes ++ " minute" ++ (if 1 < minutes then "s" else ""))
  else if seconds ≠ 0 then
    some (toString seconds ++ " second" ++ (if 1 < seconds then "s" else ""))
  else none

/-- dateState.ts isRangeValid: completeness errors short-circuit; otherwise
per-side validation, ordering, and duration bounds accumulate into one
ordered error list.  A numeric minDuration/maxDuration of 0 is falsy in the
source, so the corresponding check is skipped. -/
def isRangeValid (range : DateTimeRange) (constraints : PickerConstraints) :
    RangeValidation :=
  let completenessErrors :=
    (if range.start.date.isNone || range.start.time.isNone then
      ["Start date and time are required"] else []) ++
    (if range.endv.date.isNone || range.endv.time.isNone then
      ["End date and time are required"] else [])
  if 0 < completenessErrors.length then
    ⟨false, completenessErrors⟩
  else
    let startSideErrors :=
      match range.start.date with
      | some d =>
        let v := isDateValid d constraints
        if v.valid = false then ["Start: " ++ v.error.getD ""] else []
      | none => []
    let endSideErrors :=
      match range.endv.date with
      | some d =>
        let v := isDateValid d constraints
        if v.valid = false then ["End: " ++ v.error.getD ""] else []
      | none => []
    let tailErrors :=
      match range.start.date, range.endv.date with
      | some sd, some ed =>
        let startTime := combineDateTime sd (range.start.time.getD "00:00")
        let endTime := combineDateTime ed (range.endv.time.getD "00:00")
        let orderErrors := if endTime ≤ startTime then ["Start must be before end"] else []
        let duration := endTime - startTime
        let minErrors :=
          match constraints.minDuration with
          | some m =>
            if m ≠ 0 ∧ duration < m then
              ["Duration must be at least " ++ formatDuration m]
            else []
          | none => []
        let maxErrors :=
          match constraints.maxDuration with
          | some m =>
            if m ≠ 0 ∧ m < duration then
              ["Duration must not exceed " ++ formatDuration m]
            else []
          | none => []
        orderErrors ++ minErrors ++ maxErrors
      | _, _ => []
    let errors := startSideErrors ++ endSideErrors ++ tailErrors
    ⟨errors.length == 0, errors⟩

/-- The while loop of dateState.ts getDateRange: push the current day and
advance one calendar day while current does not exceed the end day. -/
def dateRangeGo (current endDay : Int) : List Int :=
  if h : current ≤ endDay then current :: dateRangeGo (current + 86400000) endDay
  else []
termination_by (endDay + 86400000 - current).toNat
decreasing_by
  simp_wf
  omega

/-- dateState.ts getDateRange: both endpoints floored to their day start
(setHours(0,0,0,0)); the loop advances via setDate(getDate() + 1), which in
the fixed-offset host frame is one day of 86400000 ms. -/
def getDateRange (startDate endDate : Int) : List Int :=
  dateRangeGo (startDate / 86400000 * 86400000) (endDate / 86400000 * 86400000)

/-! ## presets.ts -/

/-- The range shape a preset getRange returns: start/end instants plus the
companion HH:MM strings. -/
structure PresetRange where
  start : Int
  startTime : String
  endv : Int
  endTime : String
deriving DecidableEq

/-- presets.ts, getRelativePresets, entry id "last7days" (label
"Last 7 Days"): end = now at 23:59:59.999, start = now shifted back six
calendar days via setDate(getDate() - 6) then floored to 00:00:00.000;
parameterised by the instant "now" that new Date() reads. -/
def last7DaysGetRange (now : Int) : PresetRange :=
  let endv := jsSetHours now 23 59 59 999
  let start := jsSetHours (jsSetDate now (jsGetDate now - 6)) 0 0 0 0
  ⟨start, "00:00", endv, "23:59"⟩

/-! ## timezone.ts and the modelled host timezone database -/

/-- How a zone-dependent host operation can fail.  The host Intl constructor
throws a RangeError on an unrecognised zone identifier (hostRange); the
distinct UnknownTimezone defect class the spec demands exists here only so
that the two outcomes can be told apart. -/
inductive TzError where
  | hostRange
  | unknownTimezone
deriving DecidableEq

/-- timezone.ts TimezoneInfo. -/
structure TimezoneInfo where
  name : String
  offset : Int
  abbreviation : String
  isDST : Bool
deriving DecidableEq

/-- timezone.ts getAllTimezones: the curated catalog, verbatim. -/
def getAllTimezones : List String :=
  ["UTC", "GMT",
   "America/New_York", "America/Chicago", "America/Denver", "America/Los_Angeles",
   "America/Anchorage", "Pacific/Honolulu", "America/Toronto", "America/Mexico_City",
   "America/Buenos_Aires", "America/Sao_Paulo",
   "Europe/London", "Europe/Paris", "Europe/Berlin", "Europe/Amsterdam",
   "Europe/Brussels", "Europe/Vienna", "Europe/Prague", "Europe/Warsaw",
   "Europe/Moscow", "Europe/Istanbul",
   "Asia/Dubai", "Asia/Kolkata", "Asia/Bangkok", "Asia/Singapore",
   "Asia/Hong_Kong", "Asia/Shanghai", "Asia/Tokyo", "Asia/Seoul",
   "Asia/Jakarta", "Asia/Manila",
   "Australia/Sydney", "Australia/Melbourne", "Australia/Brisbane",
   "Australia/Perth", "Australia/Adelaide",
   "Pacific/Auckland", "Pacific/Fiji"]

/-- Modelled from the spec: the host timezone database (the Intl lookup the
source delegates to), restricted to the curated catalog.  Offsets are
standard (winter) offsets in minutes east of UTC.  Daylight saving is
modelled only for America/New_York over 2025 (the year all of the spec's
concrete scenarios use); the theorems that depend on an offset being stable
state that stability as an explicit hypothesis. -/
def catalogStdOffset : List (String × Int) :=
  [("UTC", 0), ("GMT", 0),
   ("America/New_York", -300), ("America/Chicago", -360), ("America/Denver", -420),
   ("America/Los_Angeles", -480), ("America/Anchorage", -540), ("Pacific/Honolulu", -600),
   ("America/Toronto", -300), ("America/Mexico_City", -360),
   ("America/Buenos_Aires", -180), ("America/Sao_Paulo", -180),
   ("Europe/London", 0), ("Europe/Paris", 60), ("Europe/Berlin", 60),
   ("Europe/Amsterdam", 60), ("Europe/Brussels", 60), ("Europe/Vienna", 60),
   ("Europe/Prague", 60), ("Europe/Warsaw", 60), ("Europe/Moscow", 180),
   ("Europe/Istanbul", 180),
   ("Asia/Dubai", 240), ("Asia/Kolkata", 330), ("Asia/Bangkok", 420),
   ("Asia/Singapore", 480), ("Asia/Hong_Kong", 480), ("Asia/Shanghai", 480),
   ("Asia/Tokyo", 540), ("Asia/Seoul", 540), ("Asia/Jakarta", 420),
   ("Asia/Manila", 480),
   ("Australia/Sydney", 600), ("Australia/Melbourne", 600), ("Australia/Brisbane", 600),
   ("Australia/Perth", 480), ("Australia/Adelaide", 570),
   ("Pacific/Auckland", 720), ("Pacific/Fiji", 720)]

/-- Modelled from the spec: the signed minute offset the host database
reports for a zone at an instant.  America/New_York is on daylight time
(-240) from 2025-03-09T07:00Z up to 2025-11-02T06:00Z, otherwise on -300.
An unrecognised identifier makes the host Intl constructor throw. -/
def zoneOffsetAt (timezone : String) (t : Int) : Except TzError Int :=
  match catalogStdOffset.lookup timezone with
  | some off =>
    .ok (if timezone = "America/New_York" ∧ 1741503600000 ≤ t ∧ t < 1762063200000
      then -240 else off)
  | none => .error TzError.hostRange

/-- Modelled from the spec: Intl shortOffset formatting of a zone offset,
e.g. "GMT-5", "GMT+5:30", and plain "GMT" at offset zero. -/
def formatOffsetShort (off : Int) : String :=
  if off = 0 then "GMT"
  else
    let a := off.natAbs
    let h := a / 60
    let m := a % 60
    let base := "GMT" ++ (if off < 0 then "-" else "+") ++ toString h
    if m = 0 then base
    else base ++ ":" ++ (if m < 10 then "0" else "") ++ toString m

/-- The regex extraction of timezone.ts timezoneToUtc: match GMT([+-]\d+)
against the formatted offset string and parseInt the signed digit run.  The
modelled host strings always start with GMT, so anchoring at the front is
the same search the source regex performs. -/
def parseGmtOffsetHours (s : String) : Option Int :=
  match s.data with
  | 'G' :: 'M' :: 'T' :: c :: rest =>
    if c = '+' ∨ c = '-' then
      let ds := rest.takeWhile fun ch => ch.isDigit
      if ds.isEmpty then none
      else some ((if c = '-' then -1 else 1) * (digitsVal ds : Int))
    else none
  | _ => none

/-- timezone.ts utcToTimezone: format the instant's civil fields in the
zone, then rebuild a Date from those fields (milliseconds are dropped
because the formatter stops at seconds). -/
def utcToTimezone (utcDate : Int) (timezone : String) : Except TzError Int :=
  (zoneOffsetAt timezone utcDate).map fun off =>
    let w := utcDate + off * 60000
    let c := civilFromDays (w / 86400000)
    jsMakeDay c.year (c.month - 1) c.day * 86400000
      + ((jsHours w * 60 + jsMinutes w) * 60 + jsSeconds w) * 1000

/-- timezone.ts timezoneToUtc: read the zone's GMT offset string at the
given instant, parse its whole-hour part with the GMT([+-]\d+) regex
(offset 0 when the match fails), convert to minutes, and subtract. -/
def timezoneToUtc (localDate : Int) (timezone : String) : Except TzError Int :=
  (zoneOffsetAt timezone localDate).map fun zoneOff =>
    let offset := (parseGmtOffsetHours (formatOffsetShort zoneOff)).getD 0 * 60
    localDate - offset * 60 * 1000

/-- timezone.ts getOffsetMinutes: format hour and minute fields of the same
instant in UTC and in the zone, and subtract the minutes-of-day counts.  No
day-rollover adjustment appears in the source. -/
def getOffsetMinutes (date : Int) (timezone : String) : Except TzError Int :=
  (zoneOffsetAt timezone date).map fun off =>
    let w := date + off * 60000
    let utcTotalMinutes := jsHours date * 60 + jsMinutes date
    let tzTotalMinutes := jsHours w * 60 + jsMinutes w
    tzTotalMinutes - utcTotalMinutes

/-- timezone.ts isDaylightSavings: compare the offset now against the offset
six months later (setMonth(getMonth() + 6)). -/
def isDaylightSavings (date : Int) (timezone : String) : Except TzError Bool := do
  let d2 := jsSetMonth date (jsGetMonth date + 6)
  let offset1 ← getOffsetMinutes date timezone
  let offset2 ← getOffsetMinutes d2 timezone
  pure (decide (offset2 < offset1))

/-- Modelled from the spec (§6): the long display name the host produces for
a cataloged zone.  The spec pins down only that the abbreviation is the
first four characters of this name, never its text, so the identifier
stands in for the display string; unknown zones make the formatter throw. -/
def hostLongZoneName (timezone : String) (t : Int) : Except TzError String :=
  (zoneOffsetAt timezone t).map fun _ => timezone

/-- timezone.ts getTimezoneInfo: long zone name, offset recovered from two
toLocaleString round-trips (wall-clock reinterpretation at second
precision), four-character abbreviation, and the DST heuristic. -/
def getTimezoneInfo (date : Int) (timezone : String) : Except TzError TimezoneInfo := do
  let tzName ← hostLongZoneName timezone date
  let utcDate := date - date % 1000
  let off ← zoneOffsetAt timezone date
  let w := date + off * 60000
  let tzDate := w - w % 1000
  let offsetMinutes := (utcDate - tzDate) / 60000
  let dst ← isDaylightSavings date timezone
  pure ⟨timezone, offsetMinutes, tzName.take 4, dst⟩

theorem centuryBound (K : Int) (hK : K = 0 ∨ K = 24 ∨ K = 48 ∨ K = 72)
    (doe : Int) (h1 : 0 ≤ doe) (h2 : doe ≤ 36523) :
    0 ≤ (doe - (doe + K) / 1460) / 365 ∧ (doe - (doe + K) / 1460) / 365 ≤ 99 ∧
      365 * ((doe - (doe + K) / 1460) / 365) + (doe - (doe + K) / 1460) / 365 / 4 ≤ doe ∧
      doe ≤ 365 * ((doe - (doe + K) / 1460) / 365) + (doe - (doe + K) / 1460) / 365 / 4 + 365 := by
  rcases hK with h | h | h | h <;> subst h <;> omega

set_option maxHeartbeats 2000000 in
theorem calBounds (doe : Int) (h1 : 0 ≤ doe) (h2 : doe ≤ 146096)
    (yoe : Int) (hyoe : yoe = (doe - doe / 1460 + doe / 36524 - doe / 146096) / 365) :
    0 ≤ yoe ∧ yoe ≤ 399 ∧
      365 * yoe + yoe / 4 - yoe / 100 ≤ doe ∧
      doe ≤ 365 * yoe + yoe / 4 - yoe / 100 + 365 := by
  by_cases hend : doe = 146096
  · subst hend; subst hyoe; decide
  · have hd0 : doe / 146096 = 0 := by omega
    have hc : doe / 36524 = 0 ∨ doe / 36524 = 1 ∨ doe / 36524 = 2 ∨ doe / 36524 = 3 := by omega
    rcases hc with hc | hc | hc | hc
    · have hcb := centuryBound 0 (by omega) (doe - 36524 * 0) (by omega) (by omega)
      have hdiv : doe / 1460 = 25 * 0 + (doe - 36524 * 0 + 24 * 0) / 1460 := by omega
      have hy : yoe = 100 * 0 + (doe - 36524 * 0 - (doe - 36524 * 0 + 24 * 0) / 1460) / 365 := by
        omega
      have hy4 : yoe / 4
          = 25 * 0 + (doe - 36524 * 0 - (doe - 36524 * 0 + 24 * 0) / 1460) / 365 / 4 := by
        omega
      have hy100 : yoe / 100 = 0 := by omega
      omega
    · have hcb := centuryBound 24 (by omega) (doe - 36524 * 1) (by omega) (by omega)
      have hdiv : doe / 1460 = 25 * 1 + (doe - 36524 * 1 + 24 * 1) / 1460 := by omega
      have hy : yoe = 100 * 1 + (doe - 36524 * 1 - (doe - 36524 * 1 + 24 * 1) / 1460) / 365 := by
        omega
      have hy4 : yoe / 4
          = 25 * 1 + (doe - 36524 * 1 - (doe - 36524 * 1 + 24 * 1) / 1460) / 365 / 4 := by
        omega
      have hy100 : yoe / 100 = 1 := by omega
      omega
    · have hcb := centuryBound 48 (by omega) (doe - 36524 * 2) (by omega) (by omega)
      have hdiv : doe / 1460 = 25 * 2 + (doe - 36524 * 2 + 24 * 2) / 1460 := by omega
      have hy : yoe = 100 * 2 + (doe - 36524 * 2 - (doe - 36524 * 2 + 24 * 2) / 1460) / 365 := by
        omega
      have hy4 : yoe / 4
          = 25 * 2 + (doe - 36524 * 2 - (doe - 36524 * 2 + 24 * 2) / 1460) / 365 / 4 := by
        omega
      have hy100 : yoe / 100 = 2 := by omega
      omega
    · have hcb := centuryBound 72 (by omega) (doe - 36524 * 3) (by omega) (by omega)
      have hdiv : doe / 1460 = 25 * 3 + (doe - 36524 * 3 + 24 * 3) / 1460 := by omega
      have hy : yoe = 100 * 3 + (doe - 36524 * 3 - (doe - 36524 * 3 + 24 * 3) / 1460) / 365 := by
        omega
      have hy4 : yoe / 4
          = 25 * 3 + (doe - 36524 * 3 - (doe - 36524 * 3 + 24 * 3) / 1460) / 365 / 4 := by
        omega
      have hy100 : yoe / 100 = 3 := by omega
      omega

theorem roundtrip_doe (era doe : Int) (h1 : 0 ≤ doe) (h2 : doe ≤ 146096) :
    daysFromCivil
        ⟨if civilM doe ≤ 2 then (civilYoe doe + era * 400) + 1 else civilYoe doe + era * 400,
          civilM doe, civilD doe⟩
      = era * 146097 + doe - 719468 ∧
      1 ≤ civilM doe ∧ civilM doe ≤ 12 := by
  have hcal := calBounds doe h1 h2 (civilYoe doe) rfl
  have hdoyEq : civilDoy doe
      = doe - (365 * civilYoe doe + civilYoe doe / 4 - civilYoe doe / 100) := rfl
  have hmpEq : civilMp doe = (5 * civilDoy doe + 2) / 153 := rfl
  have hdoyB : 0 ≤ civilDoy doe ∧ civilDoy doe ≤ 365 := by omega
  have hmpB : 0 ≤ civilMp doe ∧ civilMp doe ≤ 11 := by omega
  have hEraA : (civilYoe doe + era * 400) / 400 = era := by omega
  have hEraB : (civilYoe doe + era * 400 + 1 - 1) / 400 = era := by omega
  have hRem4A : (civilYoe doe + era * 400 - (civilYoe doe + era * 400) / 400 * 400) / 4
      = civilYoe doe / 4 := by rw [hEraA]; omega
  have hRem4B :
      (civilYoe doe + era * 400 + 1 - 1
          - (civilYoe doe + era * 400 + 1 - 1) / 400 * 400) / 4
      = civilYoe doe / 4 := by rw [hEraB]; omega
  have hRem100A : (civilYoe doe + era * 400 - (civilYoe doe + era * 400) / 400 * 400) / 100
      = civilYoe doe / 100 := by rw [hEraA]; omega
  have hRem100B :
      (civilYoe doe + era * 400 + 1 - 1
          - (civilYoe doe + era * 400 + 1 - 1) / 400 * 400) / 100
      = civilYoe doe / 100 := by rw [hEraB]; omega
  have hMpA : (153 * (civilMp doe + 3 - 3) + 2) / 5 = (153 * civilMp doe + 2) / 5 := by
    omega
  have hMpB : (153 * (civilMp doe - 9 + 9) + 2) / 5 = (153 * civilMp doe + 2) / 5 := by
    omega
  unfold daysFromCivil civilM civilD
  dsimp only
  split_ifs <;> omega

/-- The civil-calendar conversions invert each other, and the produced month
field is in range. -/
theorem civilFromDays_spec (n : Int) :
    daysFromCivil (civilFromDays n) = n ∧
      1 ≤ (civilFromDays n).month ∧ (civilFromDays n).month ≤ 12 := by
  have h := roundtrip_doe ((n + 719468) / 146097)
      (n + 719468 - (n + 719468) / 146097 * 146097) (by omega) (by omega)
  refine ⟨?_, h.2.1, h.2.2⟩
  have h1 := h.1
  have hn : (n + 719468) / 146097 * 146097
      + (n + 719468 - (n + 719468) / 146097 * 146097) - 719468 = n := by omega
  rw [hn] at h1
  exact h1

/-- daysFromCivil is linear in the day-of-month field. -/
theorem daysFromCivil_add_day (Y M D k : Int) :
    daysFromCivil ⟨Y, M, D + k⟩ = daysFromCivil ⟨Y, M, D⟩ + k := by
  unfold daysFromCivil
  dsimp only
  split_ifs <;> omega

/-- jsMakeDay applied to an in-range 0-based month needs no carrying. -/
theorem jsMakeDay_eq (y m d : Int) (h1 : 1 ≤ m) (h2 : m ≤ 12) :
    jsMakeDay y (m - 1) d = daysFromCivil ⟨y, m, d⟩ := by
  unfold jsMakeDay
  have hy : y + (m - 1) / 12 = y := by omega
  have hm : (m - 1) % 12 + 1 = m := by omega
  rw [hy, hm]

/-- setDate(getDate() + k) shifts the instant by exactly k calendar days in
the fixed-offset host frame. -/
theorem jsSetDate_shift (t k : Int) :
    jsSetDate t (jsGetDate t + k) = t + k * 86400000 := by
  have hspec := civilFromDays_spec (t / 86400000)
  unfold jsSetDate jsGetDate jsGetMonth jsCivil
  rw [jsMakeDay_eq _ _ _ hspec.2.1 hspec.2.2]
  have hday : daysFromCivil
      ⟨(civilFromDays (t / 86400000)).year, (civilFromDays (t / 86400000)).month,
        (civilFromDays (t / 86400000)).day + k⟩
      = daysFromCivil (civilFromDays (t / 86400000)) + k := by
    have := daysFromCivil_add_day (civilFromDays (t / 86400000)).year
      (civilFromDays (t / 86400000)).month (civilFromDays (t / 86400000)).day k
    exact this
  rw [hday, hspec.1]
  omega

/-- Generic lookup fact: a key outside the key list is not found. -/
theorem lookup_eq_none_of_not_mem_keys (l : List (String × Int)) (z : String)
    (h : z ∉ l.map Prod.fst) : l.lookup z = none := by
  induction l with
  | nil => rfl
  | cons p rest ih =>
    simp only [List.map_cons, List.mem_cons] at h
    push_neg at h
    rw [List.lookup]
    have hne : (z == p.1) = false := by
      cases p
      simp only [beq_eq_false_iff_ne, ne_eq]
      exact h.1
    rw [hne]
    exact ih h.2

/-- The offset table's keys are exactly the curated catalog, in order. -/
theorem catalog_keys : catalogStdOffset.map Prod.fst = getAllTimezones := by rfl

/-- An uncataloged zone identifier makes every zone lookup fail with the
host error. -/
theorem zoneOffsetAt_unknown (z : String) (h : z ∉ getAllTimezones) (t : Int) :
    zoneOffsetAt z t = .error TzError.hostRange := by
  unfold zoneOffsetAt
  rw [lookup_eq_none_of_not_mem_keys _ _ (by rw [catalog_keys]; exact h)]

/-- utcToTimezone truncates the zone wall-clock reinterpretation to whole
seconds. -/
theorem utcToTimezone_eq (t : Int) (z : String) (o : Int)
    (hz : zoneOffsetAt z t = .ok o) :
    utcToTimezone t z = .ok (t + o * 60000 - (t + o * 60000) % 1000) := by
  unfold utcToTimezone
  rw [hz]
  unfold Except.map
  have hspec := civilFromDays_spec ((t + o * 60000) / 86400000)
  dsimp only
  rw [jsMakeDay_eq _ _ _ hspec.2.1 hspec.2.2]
  have hrt : daysFromCivil
      ⟨(civilFromDays ((t + o * 60000) / 86400000)).year,
        (civilFromDays ((t + o * 60000) / 86400000)).month,
        (civilFromDays ((t + o * 60000) / 86400000)).day⟩
      = (t + o * 60000) / 86400000 := hspec.1
  rw [hrt]
  unfold jsHours jsMinutes jsSeconds
  congr 1
  omega

/-- The whole-hour part survives the shortOffset format / regex-parse round
trip for whole-hour offsets within the realistic band. -/
theorem parse_format_whole_hour (o : Int) (h60 : o % 60 = 0)
    (hlo : -840 ≤ o) (hhi : o ≤ 840) :
    (parseGmtOffsetHours (formatOffsetShort o)).getD 0 * 60 = o := by
  obtain ⟨k, hk⟩ : ∃ k, o = 60 * k := ⟨o / 60, by omega⟩
  subst hk
  have hk1 : -14 ≤ k := by omega
  have hk2 : k ≤ 14 := by omega
  interval_cases k <;> decide

/-- Claim C1 (counterexample): the instantToCivil / civilToInstant round
trip fails for the cataloged zone Asia/Kolkata at 2025-01-15T12:00:00Z —
an instant at which that zone's offset is the constant +330 (no
daylight-saving window anywhere), yet the trip lands 30 minutes late,
because the GMT-offset regex keeps only the whole-hour part of GMT+5:30. -/
theorem c1_roundtrip_fails_kolkata :
    "Asia/Kolkata" ∈ getAllTimezones ∧
    (∀ t : Int, zoneOffsetAt "Asia/Kolkata" t = .ok 330) ∧
    ((utcToTimezone 1736942400000 "Asia/Kolkata").bind
      fun localDate => timezoneToUtc localDate "Asia/Kolkata") = .ok 1736944200000 ∧
    (1736944200000 : Int) ≠ 1736942400000 := by
  refine ⟨by decide, fun t => rfl, rfl, by decide⟩

/-- Claim C1 (amended): for a whole-second instant and a zone whose offset
at that instant is a whole number of hours within ±14h and is unchanged at
the reinterpreted wall-clock instant (i.e. away from any DST-transition
window), utcToTimezone followed by timezoneToUtc reproduces the instant. -/
theorem c1_roundtrip_wholehour (t : Int) (z : String) (o : Int)
    (hz : zoneOffsetAt z t = .ok o)
    (hms : t % 1000 = 0)
    (hwhole : o % 60 = 0) (hlo : -840 ≤ o) (hhi : o ≤ 840)
    (hstable : zoneOffsetAt z (t + o * 60000) = .ok o) :
    ((utcToTimezone t z).bind fun localDate => timezoneToUtc localDate z) = .ok t := by
  have h1 : utcToTimezone t z = .ok (t + o * 60000) := by
    rw [utcToTimezone_eq t z o hz]
    congr 1
    omega
  rw [h1]
  show timezoneToUtc (t + o * 60000) z = .ok t
  unfold timezoneToUtc
  rw [hstable]
  unfold Except.map
  dsimp only
  rw [parse_format_whole_hour o hwhole hlo hhi]
  congr 1
  omega

/-- Claim C1 (witness): the amended round trip at 2025-01-15T12:00:00Z in
America/New_York, a whole-hour-offset zone in its winter regime. -/
theorem c1_roundtrip_wholehour_witness :
    ((utcToTimezone 1736942400000 "America/New_York").bind
      fun localDate => timezoneToUtc localDate "America/New_York")
      = .ok 1736942400000 :=
  c1_roundtrip_wholehour 1736942400000 "America/New_York" (-300)
    rfl (by decide) (by decide) (by decide) (by decide) rfl

/-- Claim C2: getOffsetMinutes performs no day-rollover adjustment.  At
2025-01-15T02:00Z the New York wall clock reads 21:00 of the previous
calendar day, and the source returns 1260 - 120 = 1140 instead of the
zone's actual signed offset -300; the cited same-day example
(2025-01-15T12:00Z ↦ -300) does hold. -/
theorem c2_getOffsetMinutes_no_rollover :
    getOffsetMinutes 1736906400000 "America/New_York" = .ok 1140 ∧
    getOffsetMinutes 1736942400000 "America/New_York" = .ok (-300) ∧
    (1140 : Int) ≠ -300 :=
  ⟨rfl, rfl, by decide⟩

/-- Claim C3: an uncataloged zone identifier is handed unchanged to the
host formatter, whose constructor failure (a RangeError) propagates out of
every zone-taking operation; no operation produces the distinct
UnknownTimezone outcome the spec requires, and no catalog-membership check
exists in the source. -/
theorem c3_unknown_zone_host_error (z : String) (h : z ∉ getAllTimezones) (t : Int) :
    getOffsetMinutes t z = .error TzError.hostRange ∧
    timezoneToUtc t z = .error TzError.hostRange ∧
    utcToTimezone t z = .error TzError.hostRange ∧
    getTimezoneInfo t z = .error TzError.hostRange ∧
    TzError.hostRange ≠ TzError.unknownTimezone := by
  have hz := zoneOffsetAt_unknown z h
  refine ⟨?_, ?_, ?_, ?_, by decide⟩
  · unfold getOffsetMinutes; rw [hz]; rfl
  · unfold timezoneToUtc; rw [hz]; rfl
  · unfold utcToTimezone; rw [hz]; rfl
  · unfold getTimezoneInfo hostLongZoneName
    rw [hz]
    rfl

/-- Claim C3 (witness): the zone "Mars/Olympus" is not cataloged and every
operation fails with the host error, not UnknownTimezone. -/
theorem c3_unknown_zone_witness :
    getOffsetMinutes 0 "Mars/Olympus" = .error TzError.hostRange ∧
    timezoneToUtc 0 "Mars/Olympus" = .error TzError.hostRange ∧
    utcToTimezone 0 "Mars/Olympus" = .error TzError.hostRange ∧
    getTimezoneInfo 0 "Mars/Olympus" = .error TzError.hostRange ∧
    TzError.hostRange ≠ TzError.unknownTimezone :=
  c3_unknown_zone_host_error "Mars/Olympus" (by decide) 0

/-- isDateValid only ever returns one of five concrete results. -/
theorem isDateValid_cases (d : Int) (c : PickerConstraints) :
    isDateValid d c = ⟨true, none⟩ ∨
    isDateValid d c = ⟨false, some "Date is before minimum allowed"⟩ ∨
    isDateValid d c = ⟨false, some "Date is after maximum allowed"⟩ ∨
    isDateValid d c = ⟨false, some "This date is not available"⟩ ∨
    isDateValid d c = ⟨false, some "This day is disabled"⟩ := by
  unfold isDateValid
  split_ifs <;> simp

/-- No minimum-duration message is ever the ordering message. -/
theorem min_msg_ne_order (s : String) :
    "Duration must be at least " ++ s ≠ "Start must be before end" := by
  intro hEq
  have hlen := congrArg String.length hEq
  rw [String.length_append] at hlen
  have h1 : ("Duration must be at least ").length = 26 := rfl
  have h2 : ("Start must be before end").length = 24 := rfl
  omega

/-- No maximum-duration message is ever the ordering message. -/
theorem max_msg_ne_order (s : String) :
    "Duration must not exceed " ++ s ≠ "Start must be before end" := by
  intro hEq
  have hlen := congrArg String.length hEq
  rw [String.length_append] at hlen
  have h1 : ("Duration must not exceed ").length = 25 := rfl
  have h2 : ("Start must be before end").length = 24 := rfl
  omega

/-- On a complete range isRangeValid reduces to the side, ordering and
duration stages. -/
theorem isRangeValid_complete (sd ed : Int) (ts te : String) (c : PickerConstraints) :
    isRangeValid ⟨⟨some sd, some ts⟩, ⟨some ed, some te⟩⟩ c =
      (let sside := if (isDateValid sd c).valid = false
          then ["Start: " ++ (isDateValid sd c).error.getD ""] else []
        let eside := if (isDateValid ed c).valid = false
          then ["End: " ++ (isDateValid ed c).error.getD ""] else []
        let sTime := combineDateTime sd ts
        let eTime := combineDateTime ed te
        let orderE := if eTime ≤ sTime then ["Start must be before end"] else []
        let minE := match c.minDuration with
          | some m => if m ≠ 0 ∧ eTime - sTime < m then
              ["Duration must be at least " ++ formatDuration m] else []
          | none => []
        let maxE := match c.maxDuration with
          | some m => if m ≠ 0 ∧ m < eTime - sTime then
              ["Duration must not exceed " ++ formatDuration m] else []
          | none => []
        let errors := sside ++ eside ++ (orderE ++ minE ++ maxE)
        (⟨errors.length == 0, errors⟩ : RangeValidation)) := rfl

/-- Claim C4: when any of the four fields is missing isRangeValid returns
immediately with exactly the applicable completeness messages and nothing
else. -/
theorem c4_incomplete_short_circuit (range : DateTimeRange) (c : PickerConstraints)
    (h : range.start.date.isNone ∨ range.start.time.isNone ∨
      range.endv.date.isNone ∨ range.endv.time.isNone) :
    isRangeValid range c =
      ⟨false,
        (if range.start.date.isNone || range.start.time.isNone then
          ["Start date and time are required"] else []) ++
        (if range.endv.date.isNone || range.endv.time.isNone then
          ["End date and time are required"] else [])⟩ := by
  unfold isRangeValid
  cases hsd : range.start.date.isNone <;> cases hst : range.start.time.isNone <;>
    cases hed : range.endv.date.isNone <;> cases het : range.endv.time.isNone <;>
    simp_all

/-- Claim C4 (witness): a range missing its start fields yields only the
start completeness message. -/
theorem c4_incomplete_witness :
    isRangeValid ⟨⟨none, none⟩, ⟨some 1736899200000, some "10:00"⟩⟩ noConstraints
      = ⟨false, ["Start date and time are required"]⟩ :=
  c4_incomplete_short_circuit _ _ (Or.inl rfl)

/-- Claim C7 (counterexample): at 0 ms no unit has a non-zero floored
magnitude, so the spec's policy names no unit, yet formatDuration still
reports the singular "0 second". -/
theorem c7_formatDuration_counterexample :
    formatDuration 0 = "0 second" ∧ formatDurationPolicy 0 = none ∧
    formatDurationPolicy 0 ≠ some (formatDuration 0) :=
  ⟨rfl, rfl, by decide⟩

/-- Claim C7 (amended): from one second upward, formatDuration reports
exactly the largest whole non-zero unit, pluralised exactly when its
magnitude exceeds 1, and never a composite. -/
theorem c7_formatDuration_policy (ms : Int) (h : 1000 ≤ ms) :
    formatDurationPolicy ms = some (formatDuration ms) := by
  unfold formatDuration formatDurationPolicy
  have h3 : ms / 1000 / 60 / 60 / 24 = ms / 86400000 := by omega
  have h2 : ms / 1000 / 60 / 60 = ms / 3600000 := by omega
  have h1 : ms / 1000 / 60 = ms / 60000 := by omega
  dsimp only
  rw [h3, h2, h1]
  split_ifs <;> first | rfl | omega

/-- Claim C7 (witness): two hours format as the single unit "2 hours". -/
theorem c7_formatDuration_witness :
    formatDurationPolicy 7200000 = some (formatDuration 7200000) :=
  c7_formatDuration_policy 7200000 (by decide)

/-- Claim C9: the minDate and maxDate checks compare full instants — a
candidate on the very calendar day of the bound but on the wrong side of
its time-of-day is rejected — while the blackout check compares by
calendar day through isSameDay. -/
theorem c9_isDateValid_granularity :
    (∀ (date m : Int) (c : PickerConstraints), c.minDate = some m →
      isSameDay date m = true → date < m →
      isDateValid date c = ⟨false, some "Date is before minimum allowed"⟩) ∧
    (∀ (date M : Int) (c : PickerConstraints), c.minDate = none → c.maxDate = some M →
      isSameDay date M = true → M < date →
      isDateValid date c = ⟨false, some "Date is after maximum allowed"⟩) ∧
    (∀ (date bd : Int) (c : PickerConstraints), c.minDate = none → c.maxDate = none →
      c.blackoutDates = some [bd] → isSameDay bd date = true →
      isDateValid date c = ⟨false, some "This date is not available"⟩) := by
  refine ⟨?_, ?_, ?_⟩
  · intro date m c hmin _ hlt
    unfold isDateValid
    rw [hmin]
    simp [hlt]
  · intro date M c hmin hmax _ hlt
    unfold isDateValid
    rw [hmin, hmax]
    simp [hlt]
  · intro date bd c hmin hmax hblack hsame
    unfold isDateValid
    rw [hmin, hmax, hblack]
    simp [hsame]

/-- Claim C9 (witness): 08:00 on the minimum's own day is rejected as
before the minimum (set at 09:00); 10:00 is rejected as after a maximum at
09:00 of the same day; 23:59:59 of a blacked-out day is rejected although
the blackout entry is that day's midnight. -/
theorem c9_isDateValid_witness :
    isDateValid 1736928000000
        ⟨some 1736931600000, none, none, none, none, none⟩
      = ⟨false, some "Date is before minimum allowed"⟩ ∧
    isDateValid 1736935200000
        ⟨none, some 1736931600000, none, none, none, none⟩
      = ⟨false, some "Date is after maximum allowed"⟩ ∧
    isDateValid 1736985599000
        ⟨none, none, some [1736899200000], none, none, none⟩
      = ⟨false, some "This date is not available"⟩ := by
  refine ⟨?_, ?_, ?_⟩
  · exact c9_isDateValid_granularity.1 1736928000000 1736931600000 _
      rfl (by decide) (by decide)
  · exact c9_isDateValid_granularity.2.1 1736935200000 1736931600000 _
      rfl rfl (by decide) (by decide)
  · exact c9_isDateValid_granularity.2.2 1736985599000 1736899200000 _
      rfl rfl rfl (by decide)

/-- Claim C5: for a complete range the ordering message appears exactly
when the naively combined civil start value is not strictly below the
combined civil end value, regardless of the constraint set. -/
theorem c5_order_error_iff (sd ed : Int) (ts te : String) (c : PickerConstraints) :
    ("Start must be before end" ∈
      (isRangeValid ⟨⟨some sd, some ts⟩, ⟨some ed, some te⟩⟩ c).errors)
    ↔ ¬(combineDateTime sd ts < combineDateTime ed te) := by
  rw [isRangeValid_complete]
  dsimp only
  have hs : "Start must be before end" ∉
      (if (isDateValid sd c).valid = false
        then ["Start: " ++ (isDateValid sd c).error.getD ""] else []) := by
    rcases isDateValid_cases sd c with hc | hc | hc | hc | hc <;> rw [hc] <;> decide
  have he : "Start must be before end" ∉
      (if (isDateValid ed c).valid = false
        then ["End: " ++ (isDateValid ed c).error.getD ""] else []) := by
    rcases isDateValid_cases ed c with hc | hc | hc | hc | hc <;> rw [hc] <;> decide
  have hmin : "Start must be before end" ∉
      (match c.minDuration with
        | some m =>
          if m ≠ 0 ∧ combineDateTime ed te - combineDateTime sd ts < m then
            ["Duration must be at least " ++ formatDuration m]
          else []
        | none => []) := by
    cases c.minDuration with
    | none => simp
    | some m =>
      dsimp only
      split_ifs with hif
      · simp only [List.mem_singleton]
        exact fun hne => (min_msg_ne_order (formatDuration m)) hne.symm
      · simp
  have hmax : "Start must be before end" ∉
      (match c.maxDuration with
        | some m =>
          if m ≠ 0 ∧ m < combineDateTime ed te - combineDateTime sd ts then
            ["Duration must not exceed " ++ formatDuration m]
          else []
        | none => []) := by
    cases c.maxDuration with
    | none => simp
    | some m =>
      dsimp only
      split_ifs with hif
      · simp only [List.mem_singleton]
        exact fun hne => (max_msg_ne_order (formatDuration m)) hne.symm
      · simp
  constructor
  · intro hmem
    by_cases hor : combineDateTime ed te ≤ combineDateTime sd ts
    · omega
    · exfalso
      rw [if_neg hor] at hmem
      simp only [List.mem_append, List.not_mem_nil] at hmem
      tauto
  · intro hge
    have hor : combineDateTime ed te ≤ combineDateTime sd ts := by omega
    have hmm : "Start must be before end" ∈
        (if combineDateTime ed te ≤ combineDateTime sd ts
          then ["Start must be before end"] else []) := by
      rw [if_pos hor]
      simp
    simp only [List.mem_append]
    tauto

/-- Claim C5 (witness): an inverted range (start 17:00, end 09:00 of the
previous day) carries the ordering message. -/
theorem c5_order_error_witness :
    "Start must be before end" ∈
      (isRangeValid
        ⟨⟨some 1736985600000, some "17:00"⟩, ⟨some 1736899200000, some "09:00"⟩⟩
        noConstraints).errors :=
  (c5_order_error_iff 1736985600000 1736899200000 "17:00" "09:00"
    noConstraints).mpr (by decide)

/-- Claim C6: with minDuration set, a complete, otherwise-valid range whose
combined civil duration equals minDuration exactly is valid, and a range
whose duration is one millisecond short is invalid carrying the
"Duration must be at least …" message. -/
theorem c6_min_duration_boundary :
    (∀ (c : PickerConstraints) (D sd ed : Int) (ts te : String),
      c.minDuration = some D → 1 ≤ D →
      (isDateValid sd c).valid = true → (isDateValid ed c).valid = true →
      combineDateTime ed te - combineDateTime sd ts = D →
      (c.maxDuration.all fun M =>
        decide (M = 0) || decide (combineDateTime ed te - combineDateTime sd ts ≤ M)) = true →
      isRangeValid ⟨⟨some sd, some ts⟩, ⟨some ed, some te⟩⟩ c = ⟨true, []⟩) ∧
    (∀ (c : PickerConstraints) (D sd ed : Int) (ts te : String),
      c.minDuration = some D → 1 ≤ D →
      combineDateTime ed te - combineDateTime sd ts = D - 1 →
      (isRangeValid ⟨⟨some sd, some ts⟩, ⟨some ed, some te⟩⟩ c).valid = false ∧
      ("Duration must be at least " ++ formatDuration D) ∈
        (isRangeValid ⟨⟨some sd, some ts⟩, ⟨some ed, some te⟩⟩ c).errors) := by
  constructor
  · intro c D sd ed ts te hmin hD hsv hev hdur hmax
    rw [isRangeValid_complete]
    dsimp only
    have hsideS : (if (isDateValid sd c).valid = false
        then ["Start: " ++ (isDateValid sd c).error.getD ""] else []) = [] := by
      rw [hsv]; simp
    have hsideE : (if (isDateValid ed c).valid = false
        then ["End: " ++ (isDateValid ed c).error.getD ""] else []) = [] := by
      rw [hev]; simp
    have horder : ¬(combineDateTime ed te ≤ combineDateTime sd ts) := by omega
    rw [hsideS, hsideE, if_neg horder, hmin]
    dsimp only
    have hnofire : ¬(D ≠ 0 ∧ combineDateTime ed te - combineDateTime sd ts < D) := by
      omega
    rw [if_neg hnofire]
    cases hM : c.maxDuration with
    | none => simp
    | some M =>
      rw [hM] at hmax
      simp only [Option.all_some, Bool.or_eq_true, decide_eq_true_eq] at hmax
      dsimp only
      have hnomax : ¬(M ≠ 0 ∧ M < combineDateTime ed te - combineDateTime sd ts) := by
        omega
      rw [if_neg hnomax]
      simp
  · intro c D sd ed ts te hmin hD hdur
    rw [isRangeValid_complete]
    dsimp only
    rw [hmin]
    dsimp only
    have hfire : D ≠ 0 ∧ combineDateTime ed te - combineDateTime sd ts < D := by omega
    rw [if_pos hfire]
    constructor
    · simp only [beq_eq_false_iff_ne, ne_eq, List.length_append, List.length_singleton]
      omega
    · simp [List.mem_append]

/-- Claim C6 (witness): with a two-hour minimum a 09:00-11:00 range is
valid; with a minimum of 3600001 ms a 09:00-10:00 range (duration exactly
one millisecond short) is invalid with the "at least" message. -/
theorem c6_min_duration_witness :
    isRangeValid
        ⟨⟨some 1736899200000, some "09:00"⟩, ⟨some 1736899200000, some "11:00"⟩⟩
        ⟨none, none, none, some 7200000, none, none⟩ = ⟨true, []⟩ ∧
    ((isRangeValid
        ⟨⟨some 1736899200000, some "09:00"⟩, ⟨some 1736899200000, some "10:00"⟩⟩
        ⟨none, none, none, some 3600001, none, none⟩).valid = false ∧
      ("Duration must be at least " ++ formatDuration 3600001) ∈
        (isRangeValid
          ⟨⟨some 1736899200000, some "09:00"⟩, ⟨some 1736899200000, some "10:00"⟩⟩
          ⟨none, none, none, some 3600001, none, none⟩).errors) :=
  ⟨c6_min_duration_boundary.1 _ 7200000 _ _ _ _ rfl (by decide) rfl rfl
      (by decide) rfl,
    c6_min_duration_boundary.2 _ 3600001 _ _ _ _ rfl (by decide) (by decide)⟩

/-- The loop of getDateRange produces the arithmetic progression of day
starts from current through endDay inclusive (empty when current is
already past endDay). -/
theorem dateRangeGo_eq (current endDay : Int) :
    dateRangeGo current endDay =
      (List.range ((endDay - current) / 86400000 + 1).toNat).map
        (fun i : Nat => current + (i : Int) * 86400000) := by
  rw [dateRangeGo]
  split_ifs with h
  · rw [dateRangeGo_eq (current + 86400000) endDay]
    have hn : ((endDay - current) / 86400000 + 1).toNat
        = ((endDay - (current + 86400000)) / 86400000 + 1).toNat + 1 := by omega
    rw [hn, List.range_succ_eq_map, List.map_cons, List.map_map]
    refine congrArg₂ List.cons (by simp) ?_
    refine List.map_congr_left ?_
    intro a _
    simp only [Function.comp_apply]
    push_cast
    ring
  · have h0 : ((endDay - current) / 86400000 + 1).toNat = 0 := by omega
    rw [h0]
    rfl
termination_by (endDay + 86400000 - current).toNat
decreasing_by
  simp_wf
  omega

/-- Claim C10: getDateRange returns the consecutive day starts from the
start date's calendar day through the end date's calendar day inclusive,
in ascending order, with length (days between) + 1 — which is the empty
list whenever the start day lies after the end day. -/
theorem c10_getDateRange_progression (s e : Int) :
    getDateRange s e =
      (List.range (e / 86400000 - s / 86400000 + 1).toNat).map
        (fun i : Nat => s / 86400000 * 86400000 + (i : Int) * 86400000) ∧
    (getDateRange s e).length = (e / 86400000 - s / 86400000 + 1).toNat := by
  have hcount : ((e / 86400000 * 86400000 - s / 86400000 * 86400000) / 86400000 + 1).toNat
      = (e / 86400000 - s / 86400000 + 1).toNat := by omega
  have h1 : getDateRange s e =
      (List.range (e / 86400000 - s / 86400000 + 1).toNat).map
        (fun i : Nat => s / 86400000 * 86400000 + (i : Int) * 86400000) := by
    unfold getDateRange
    rw [dateRangeGo_eq, hcount]
  exact ⟨h1, by rw [h1]; simp⟩

/-- Claim C8: for every "now", the Last 7 Days preset starts at midnight of
the calendar day six days earlier, ends at 23:59:59.999 of the current
calendar day (so it spans exactly 7 calendar days inclusive), carries the
strings 00:00 and 23:59, and at now = 2025-06-10T12:00Z evaluates to
2025-06-04T00:00:00.000Z through 2025-06-10T23:59:59.999Z. -/
theorem c8_last7days_range :
    (∀ now : Int,
      (last7DaysGetRange now).start = now / 86400000 * 86400000 - 6 * 86400000 ∧
      (last7DaysGetRange now).startTime = "00:00" ∧
      (last7DaysGetRange now).endv = now / 86400000 * 86400000 + 86399999 ∧
      (last7DaysGetRange now).endTime = "23:59" ∧
      (last7DaysGetRange now).endv / 86400000
        - (last7DaysGetRange now).start / 86400000 = 6) ∧
    last7DaysGetRange 1749556800000
      = ⟨1748995200000, "00:00", 1749599999999, "23:59"⟩ := by
  constructor
  · intro now
    have h6 : jsGetDate now - 6 = jsGetDate now + (-6) := by ring
    have hshift : jsSetDate now (jsGetDate now - 6) = now + (-6) * 86400000 := by
      rw [h6, jsSetDate_shift]
    have hstart : (last7DaysGetRange now).start
        = now / 86400000 * 86400000 - 6 * 86400000 := by
      show jsSetHours (jsSetDate now (jsGetDate now - 6)) 0 0 0 0
        = now / 86400000 * 86400000 - 6 * 86400000
      rw [hshift]
      unfold jsSetHours
      omega
    have hend : (last7DaysGetRange now).endv
        = now / 86400000 * 86400000 + 86399999 := by
      show jsSetHours now 23 59 59 999 = now / 86400000 * 86400000 + 86399999
      unfold jsSetHours
      omega
    refine ⟨hstart, rfl, hend, rfl, ?_⟩
    rw [hstart, hend]
    omega
  · decide
